import Mathlib

/-!
Shallow embedding of `conn/conntest/conntest.go` from schmidtw/periph.

The Go file defines three test fakes for the `conn.Conn` interface:
`RecordRaw` (forwards writes to an `io.Writer` sink), `Record` (logs every
transaction, optionally delegating to an underlying connection), and
`Playback` (replays a pre-recorded log of transactions, checking each call).

Modelling choices:
- Go byte slices become `List Nat`; `nil` and the empty slice are both `[]`
  (consistent with `bytes.Equal`, `len`, `copy` treating them alike).
- Go `copy(dst, src)` becomes `goCopy dst src`, returning the new contents
  of `dst`.
- Go `error` values become the inductive `Err`; an underlying connection
  or sink may fail with any `Err` (in particular `Err.other msg`), so
  propagating an error "verbatim" is propagating the very value.
- Methods that mutate a receiver and/or an in/out buffer become pure
  functions returning the new receiver state, the new buffer contents and
  the returned error.
- The `io.Writer` sink of `RecordRaw` is modelled as a state-transition
  function over an abstract sink-state type together with the current
  state, since the Go interface value carries its own state.
- The mutex in each type only serializes concurrent callers; a single
  call's behaviour is sequential so the lock has no counterpart here.
-/

namespace Conntest

/-- Go `[]byte`, as a list of byte values. -/
abbrev Bytes := List Nat

/-- Go error values produced or propagated by this package.
`other` stands for any error produced outside this file (an underlying
connection or sink). -/
inductive Err where
  | notImplemented
  | readUnsupported
  | unexpectedTx
  | unexpectedWrite (w expected : Bytes)
  | unexpectedReadLen (rLen expectedLen : Nat)
  | other (msg : String)
deriving DecidableEq, Repr

/-- Go `copy(dst, src)`: copies `min |dst| |src|` elements of `src` into the
front of `dst`; returns the new contents of `dst`. -/
def goCopy (dst src : Bytes) : Bytes :=
  src.take (min dst.length src.length) ++ dst.drop (min dst.length src.length)

/-- Go `bytes.Equal`. -/
def bytesEqual (a b : Bytes) : Bool :=
  a == b

/-- Go type `IO` from conntest.go: one logged transaction, a write/read
byte-buffer pair. (Named `IORecord` because `IO` is taken in Lean.) -/
structure IORecord where
  Write : Bytes
  Read : Bytes
deriving DecidableEq, Repr

/-- The `conn.Conn` interface as used for the underlying connection of
`Record`: `Tx(w, read)` receives the write bytes and the current contents
of the caller's read buffer, and returns the new contents of that buffer
together with the returned error. -/
def Conn := Bytes → Bytes → Bytes × Option Err

/-- An `io.Writer` over sink-state `σ`: `Write(b)` maps the current state
to the new state, the byte count and the returned error. -/
def Writer (σ : Type) := σ → Bytes → σ × Nat × Option Err

/-- Go type `RecordRaw`: a writer interface value, split into its
transition function `W` and its current state `sinkState`. -/
structure RecordRaw (σ : Type) where
  W : Writer σ
  sinkState : σ

/-- Method `RecordRaw.Write`: forwards the buffer to the sink and returns whatever
count/error the sink returns. -/
def RecordRaw.Write (r : RecordRaw σ) (b : Bytes) : RecordRaw σ × Nat × Option Err :=
  let (s2, n, e) := r.W r.sinkState b
  ({ r with sinkState := s2 }, n, e)

/-- Method `RecordRaw.Tx`: errors with "not implemented" if a non-empty read is
requested, otherwise behaves as `Write` on the write buffer, discarding
the count. -/
def RecordRaw.Tx (r : RecordRaw σ) (w read : Bytes) : RecordRaw σ × Option Err :=
  if read.length ≠ 0 then
    (r, some Err.notImplemented)
  else
    let (r2, _, e) := r.Write w
    (r2, e)

/-- Go type `Record`: optional underlying connection plus the log. -/
structure Record where
  Conn : Option Conn
  Ops : List IORecord

/-- The `IO` value built and appended by `Record.Tx`:
`io := IO{Write: make([]byte, len(w))}`, `io.Read = make(...)` only when
the read buffer is non-empty, then `copy` both. -/
def recordEntry (w read : Bytes) : IORecord :=
  { Write := goCopy (List.replicate w.length 0) w
    Read := if read.length ≠ 0 then goCopy (List.replicate read.length 0) read else [] }

/-- Method `Record.Tx`: delegate to the underlying connection when present (its
error is returned as-is and nothing is recorded); with no connection a
non-empty read fails; otherwise append a copy of the transaction.
Returns (new record, new read-buffer contents, error). -/
def Record.Tx (r : Record) (w read : Bytes) : (Record × Bytes) × Option Err :=
  match r.Conn with
  | none =>
    if read.length ≠ 0 then
      ((r, read), some Err.readUnsupported)
    else
      (({ r with Ops := r.Ops ++ [recordEntry w read] }, read), none)
  | some c =>
    let (read2, e) := c w read
    match e with
    | some err => ((r, read2), some err)
    | none => (({ r with Ops := r.Ops ++ [recordEntry w read2] }, read2), none)

/-- Method `Record.Write(d)`: `Tx(d, nil)`, returning `(0, err)` on failure and
`(len d, nil)` on success. -/
def Record.Write (r : Record) (d : Bytes) : Record × Nat × Option Err :=
  let ((r2, _), e) := r.Tx d []
  match e with
  | some err => (r2, 0, some err)
  | none => (r2, d.length, none)

/-- Go type `Playback`: the log of expected transactions. -/
structure Playback where
  Ops : List IORecord
deriving DecidableEq, Repr

/-- Method `Playback.Tx`: fail on an empty log, on a write mismatch, or on a
read-length mismatch; otherwise copy the head's read bytes into the
caller's buffer and pop the head.
Returns (new playback, new read-buffer contents, error). -/
def Playback.Tx (p : Playback) (w r : Bytes) : (Playback × Bytes) × Option Err :=
  match p.Ops with
  | [] => ((p, r), some Err.unexpectedTx)
  | op0 :: rest =>
    if ¬ bytesEqual op0.Write w then
      ((p, r), some (Err.unexpectedWrite w op0.Write))
    else if op0.Read.length ≠ r.length then
      ((p, r), some (Err.unexpectedReadLen r.length op0.Read.length))
    else
      ((⟨rest⟩, goCopy r op0.Read), none)

/-- Method `Playback.Write(d)`: `Tx(d, nil)`, returning `(0, err)` on failure and
`(len d, nil)` on success. -/
def Playback.Write (p : Playback) (d : Bytes) : Playback × Nat × Option Err :=
  let ((p2, _), e) := p.Tx d []
  match e with
  | some err => (p2, 0, some err)
  | none => (p2, d.length, none)

/-- Replay a list of `Tx` calls `(w, read)` against a `Record`, threading
its state; collects for each call the read buffer after the call and the
returned error. -/
def Record.run (r : Record) (calls : List (Bytes × Bytes)) :
    Record × List (Bytes × Option Err) :=
  match calls with
  | [] => (r, [])
  | (w, rd) :: rest =>
    let ((r2, rd2), e) := r.Tx w rd
    let (r3, outs) := Record.run r2 rest
    (r3, (rd2, e) :: outs)

/-- Replay a list of `Tx` calls `(w, read)` against a `Playback`, threading
its state; collects for each call the read buffer after the call and the
returned error. -/
def Playback.run (p : Playback) (calls : List (Bytes × Bytes)) :
    Playback × List (Bytes × Option Err) :=
  match calls with
  | [] => (p, [])
  | (w, rd) :: rest =>
    let ((p2, rd2), e) := p.Tx w rd
    let (p3, outs) := Playback.run p2 rest
    (p3, (rd2, e) :: outs)

/-- A concrete underlying connection whose `Tx` always fails, leaving the
read buffer untouched (used to exercise the error-propagation path). -/
def failingConn : Conn :=
  fun _ rd => (rd, some (Err.other "boom"))

/-- A concrete sink that accumulates every written chunk and always
succeeds (used to exercise `RecordRaw`). -/
def appendWriter : Writer (List Bytes) :=
  fun s b => (s ++ [b], b.length, none)

/-! ### Basic lemmas about the embedded operations -/

theorem goCopy_eq_of_length_eq {dst src : Bytes} (h : dst.length = src.length) :
    goCopy dst src = src := by
  unfold goCopy
  rw [h, min_self, List.take_length, List.drop_eq_nil_of_le (le_of_eq h), List.append_nil]

theorem bytesEqual_self (a : Bytes) : bytesEqual a a = true := by
  simp [bytesEqual]

theorem recordEntry_eq (w rd : Bytes) : recordEntry w rd = ⟨w, rd⟩ := by
  have hw : goCopy (List.replicate w.length 0) w = w :=
    goCopy_eq_of_length_eq (by simp)
  by_cases h : rd.length = 0
  · have hrd : rd = [] := List.length_eq_zero.mp h
    simp [recordEntry, hw, hrd]
  · have hr : goCopy (List.replicate rd.length 0) rd = rd :=
      goCopy_eq_of_length_eq (by simp)
    simp [recordEntry, hw, hr, h]

/-! ### Claim theorems -/

/-- Claim C2: for a Player with a non-empty log, if the incoming write
bytes equal the head record's write bytes and the read buffer length
equals the head record's read length, then `Playback.Tx` copies the head's
read bytes into the buffer, pops exactly the head (log length decreases by
one) and returns success. -/
theorem playback_tx_match_pops_head (op0 : IORecord) (rest : List IORecord)
    (w r : Bytes) (hw : op0.Write = w) (hr : r.length = op0.Read.length) :
    Playback.Tx ⟨op0 :: rest⟩ w r = ((⟨rest⟩, op0.Read), none) ∧
    (Playback.Tx ⟨op0 :: rest⟩ w r).1.1.Ops.length + 1 =
      (Playback.mk (op0 :: rest)).Ops.length := by
  subst hw
  have hcopy : goCopy r op0.Read = op0.Read := goCopy_eq_of_length_eq hr
  refine ⟨?_, ?_⟩ <;> simp [Playback.Tx, bytesEqual_self, hr, hcopy]

theorem playback_tx_match_pops_head_witness :
    Playback.Tx ⟨[⟨[1], [170]⟩]⟩ [1] [0] = ((⟨[]⟩, [170]), none) ∧
    (Playback.Tx ⟨[⟨[1], [170]⟩]⟩ [1] [0]).1.1.Ops.length + 1 =
      (Playback.mk [⟨[1], [170]⟩]).Ops.length :=
  playback_tx_match_pops_head ⟨[1], [170]⟩ [] [1] [0] rfl rfl

/-- Claim C3: for a Player whose log is empty, every `Tx` call fails with
the "unexpected Tx()" exhaustion error and leaves the log empty: the
exhausted state is terminal. -/
theorem playback_tx_exhausted_terminal (p : Playback) (w r : Bytes)
    (hp : p.Ops = []) :
    Playback.Tx p w r = ((p, r), some Err.unexpectedTx) ∧
    (Playback.Tx p w r).1.1.Ops = [] := by
  obtain ⟨ops⟩ := p
  have hops : ops = [] := hp
  subst hops
  exact ⟨rfl, rfl⟩

theorem playback_tx_exhausted_terminal_witness :
    Playback.Tx ⟨[]⟩ [1] [2] = ((⟨[]⟩, [2]), some Err.unexpectedTx) ∧
    (Playback.Tx ⟨[]⟩ [1] [2]).1.1.Ops = [] :=
  playback_tx_exhausted_terminal ⟨[]⟩ [1] [2] rfl

/-- Claim C4: every failed `Playback.Tx` call (exhaustion, write mismatch
or read-length mismatch) leaves the Player's log unchanged. -/
theorem playback_tx_failure_preserves_log (p : Playback) (w r : Bytes)
    (e : Err) (he : (Playback.Tx p w r).2 = some e) :
    (Playback.Tx p w r).1.1 = p := by
  obtain ⟨ops⟩ := p
  cases ops with
  | nil => rfl
  | cons op0 rest =>
    by_cases h1 : bytesEqual op0.Write w
    · by_cases h2 : op0.Read.length = r.length
      · simp [Playback.Tx, h1, h2] at he
      · simp [Playback.Tx, h1, h2]
    · simp [Playback.Tx, h1]

theorem playback_tx_failure_preserves_log_witness :
    (Playback.Tx ⟨[⟨[1, 2], []⟩]⟩ [1, 3] []).1.1 = ⟨[⟨[1, 2], []⟩]⟩ :=
  playback_tx_failure_preserves_log ⟨[⟨[1, 2], []⟩]⟩ [1, 3] []
    (Err.unexpectedWrite [1, 3] [1, 2]) (by decide)

/-- Claim C10: every failed `Playback.Tx` call leaves the caller-supplied
read buffer exactly as it was before the call. -/
theorem playback_tx_failure_preserves_read_buffer (p : Playback)
    (w r : Bytes) (e : Err) (he : (Playback.Tx p w r).2 = some e) :
    (Playback.Tx p w r).1.2 = r := by
  obtain ⟨ops⟩ := p
  cases ops with
  | nil => rfl
  | cons op0 rest =>
    by_cases h1 : bytesEqual op0.Write w
    · by_cases h2 : op0.Read.length = r.length
      · simp [Playback.Tx, h1, h2] at he
      · simp [Playback.Tx, h1, h2]
    · simp [Playback.Tx, h1]

theorem playback_tx_failure_preserves_read_buffer_witness :
    (Playback.Tx ⟨[]⟩ [9] [7, 8]).1.2 = [7, 8] :=
  playback_tx_failure_preserves_read_buffer ⟨[]⟩ [9] [7, 8]
    Err.unexpectedTx (by decide)

/-- Claim C5: when the underlying connection's `Tx` fails, `Record.Tx`
returns that very error value (no wrapping) and the Recorder — in
particular its log — is unchanged: the failed transaction is not
appended. -/
theorem record_tx_propagates_underlying_error (c : Conn) (r : Record)
    (w read read2 : Bytes) (e : Err) (hc : r.Conn = some c)
    (hcall : c w read = (read2, some e)) :
    Record.Tx r w read = ((r, read2), some e) := by
  obtain ⟨rc, ops⟩ := r
  have hrc : rc = some c := hc
  subst hrc
  simp [Record.Tx, hcall]

theorem record_tx_propagates_underlying_error_witness :
    Record.Tx ⟨some failingConn, []⟩ [1] [] =
      ((⟨some failingConn, []⟩, []), some (Err.other "boom")) :=
  record_tx_propagates_underlying_error failingConn ⟨some failingConn, []⟩
    [1] [] [] (Err.other "boom") rfl rfl

/-- Claim C6: for every non-empty read buffer, `RecordRaw.Tx` fails with
the "not implemented" error without touching the sink, and `Record.Tx`
with no underlying connection fails with the "read unsupported" error
without appending to the log. -/
theorem tx_nonempty_read_unsupported :
    (∀ (σ : Type) (r : RecordRaw σ) (w read : Bytes), read ≠ [] →
      RecordRaw.Tx r w read = (r, some Err.notImplemented)) ∧
    (∀ (r : Record) (w read : Bytes), r.Conn = none → read ≠ [] →
      Record.Tx r w read = ((r, read), some Err.readUnsupported)) := by
  constructor
  · intro σ r w read hne
    have hlen : read.length ≠ 0 := by
      simpa using hne
    simp [RecordRaw.Tx, hlen]
  · intro r w read hc hne
    obtain ⟨rc, ops⟩ := r
    have hrc : rc = none := hc
    subst hrc
    have hlen : read.length ≠ 0 := by
      simpa using hne
    simp [Record.Tx, hlen]

theorem tx_nonempty_read_unsupported_witness :
    RecordRaw.Tx ⟨appendWriter, []⟩ [1] [2] =
      (⟨appendWriter, []⟩, some Err.notImplemented) ∧
    Record.Tx ⟨none, []⟩ [3] [4] =
      ((⟨none, []⟩, [4]), some Err.readUnsupported) :=
  ⟨tx_nonempty_read_unsupported.1 (List Bytes) ⟨appendWriter, []⟩ [1] [2]
      (by decide),
    tx_nonempty_read_unsupported.2 ⟨none, []⟩ [3] [4] rfl (by decide)⟩

/-- Claim C7: every successful `Record.Tx` appends exactly one new record
at the end of the log — its write bytes a copy of `w`, its read bytes a
copy of the read buffer's contents (empty when the buffer is empty) — and
leaves all previously logged records unchanged. -/
theorem record_tx_success_appends_one (r : Record) (w read : Bytes)
    (h : (Record.Tx r w read).2 = none) :
    ((Record.Tx r w read).1.1).Ops =
      r.Ops ++ [⟨w, (Record.Tx r w read).1.2⟩] := by
  obtain ⟨rc, ops⟩ := r
  cases rc with
  | none =>
    by_cases hlen : read.length ≠ 0
    · simp [Record.Tx, hlen] at h
    · simp [Record.Tx, hlen, recordEntry_eq]
  | some c =>
    rcases hc : c w read with ⟨rd2, e⟩
    cases e with
    | some err => simp [Record.Tx, hc] at h
    | none => simp [Record.Tx, hc, recordEntry_eq]

theorem record_tx_success_appends_one_witness :
    ((Record.Tx ⟨none, []⟩ [5] []).1.1).Ops =
      ([] : List IORecord) ++ [⟨[5], (Record.Tx ⟨none, []⟩ [5] []).1.2⟩] :=
  record_tx_success_appends_one ⟨none, []⟩ [5] [] rfl

/-- Claim C8: `Record.Write` and `Playback.Write` behave exactly as
`Tx(d, empty)`: on success they return `(len d, nil)`, on failure they
return the `Tx` error with a count of 0, with the same state change. -/
theorem write_is_tx_with_empty_read :
    (∀ (r : Record) (d : Bytes),
      Record.Write r d =
        ((Record.Tx r d []).1.1,
          match (Record.Tx r d []).2 with
          | some e => (0, some e)
          | none => (d.length, none))) ∧
    (∀ (p : Playback) (d : Bytes),
      Playback.Write p d =
        ((Playback.Tx p d []).1.1,
          match (Playback.Tx p d []).2 with
          | some e => (0, some e)
          | none => (d.length, none))) := by
  constructor
  · intro r d
    unfold Record.Write
    rcases h : Record.Tx r d [] with ⟨⟨r2, rd2⟩, e⟩
    cases e <;> simp [h]
  · intro p d
    unfold Playback.Write
    rcases h : Playback.Tx p d [] with ⟨⟨p2, rd2⟩, e⟩
    cases e <;> simp [h]

theorem record_tx_ops_growth (r : Record) (w read : Bytes) :
    ((Record.Tx r w read).1.1).Ops = r.Ops ∨
      ∃ t, ((Record.Tx r w read).1.1).Ops = r.Ops ++ [t] := by
  obtain ⟨rc, ops⟩ := r
  cases rc with
  | none =>
    by_cases hlen : read.length ≠ 0
    · left
      simp [Record.Tx, hlen]
    · right
      exact ⟨recordEntry w read, by simp [Record.Tx, hlen]⟩
  | some c =>
    rcases hc : c w read with ⟨rd2, e⟩
    cases e with
    | some err =>
      left
      simp [Record.Tx, hc]
    | none =>
      right
      exact ⟨recordEntry w rd2, by simp [Record.Tx, hc]⟩

theorem playback_tx_ops_shrink (p : Playback) (w r : Bytes) :
    ((Playback.Tx p w r).1.1).Ops = p.Ops ∨
      ∃ t rest, p.Ops = t :: rest ∧ ((Playback.Tx p w r).1.1).Ops = rest := by
  obtain ⟨ops⟩ := p
  cases ops with
  | nil =>
    left
    rfl
  | cons op0 rest =>
    by_cases h1 : bytesEqual op0.Write w
    · by_cases h2 : op0.Read.length = r.length
      · right
        exact ⟨op0, rest, rfl, by simp [Playback.Tx, h1, h2]⟩
      · left
        simp [Playback.Tx, h1, h2]
    · left
      simp [Playback.Tx, h1]

theorem record_write_fst (r : Record) (d : Bytes) :
    (Record.Write r d).1 = (Record.Tx r d []).1.1 := by
  unfold Record.Write
  rcases h : Record.Tx r d [] with ⟨⟨r2, rd2⟩, e⟩
  cases e <;> simp [h]

theorem playback_write_fst (p : Playback) (d : Bytes) :
    (Playback.Write p d).1 = (Playback.Tx p d []).1.1 := by
  unfold Playback.Write
  rcases h : Playback.Tx p d [] with ⟨⟨p2, rd2⟩, e⟩
  cases e <;> simp [h]

/-- Claim C9: each operation either leaves the Recorder's log unchanged or
appends exactly one record at the end, and either leaves the Player's log
unchanged or removes exactly the front record. -/
theorem log_direction_invariant :
    (∀ (r : Record) (w read : Bytes),
      ((Record.Tx r w read).1.1).Ops = r.Ops ∨
        ∃ t, ((Record.Tx r w read).1.1).Ops = r.Ops ++ [t]) ∧
    (∀ (r : Record) (d : Bytes),
      ((Record.Write r d).1).Ops = r.Ops ∨
        ∃ t, ((Record.Write r d).1).Ops = r.Ops ++ [t]) ∧
    (∀ (p : Playback) (w rd : Bytes),
      ((Playback.Tx p w rd).1.1).Ops = p.Ops ∨
        ∃ t rest, p.Ops = t :: rest ∧ ((Playback.Tx p w rd).1.1).Ops = rest) ∧
    (∀ (p : Playback) (d : Bytes),
      ((Playback.Write p d).1).Ops = p.Ops ∨
        ∃ t rest, p.Ops = t :: rest ∧ ((Playback.Write p d).1).Ops = rest) := by
  refine ⟨record_tx_ops_growth, ?_, playback_tx_ops_shrink, ?_⟩
  · intro r d
    rw [record_write_fst]
    exact record_tx_ops_growth r d []
  · intro p d
    rw [playback_write_fst]
    exact playback_tx_ops_shrink p d []

theorem record_run_empty_reads (ws : List Bytes) (ops : List IORecord) :
    Record.run ⟨none, ops⟩ (ws.map fun w => (w, [])) =
      (⟨none, ops ++ ws.map fun w => ⟨w, []⟩⟩, ws.map fun _ => ([], none)) := by
  induction ws generalizing ops with
  | nil => simp [Record.run]
  | cons w ws ih =>
    simp [Record.run, Record.Tx, recordEntry_eq, ih (ops ++ [⟨w, []⟩])]

theorem playback_run_replay (ws : List Bytes) :
    Playback.run ⟨ws.map fun w => ⟨w, []⟩⟩ (ws.map fun w => (w, [])) =
      (⟨[]⟩, ws.map fun _ => ([], none)) := by
  induction ws with
  | nil => simp [Playback.run]
  | cons w ws ih =>
    simp [Playback.run, Playback.Tx, bytesEqual_self, goCopy, ih]

/-- Claim C1: recording any sequence of transactions with empty read
buffers through a Recorder with no underlying connection succeeds and
produces exactly that sequence as the log; seeding a fresh Player with
that log and replaying the identical calls produces no errors and yields
the originally recorded (empty) read outputs. -/
theorem record_playback_round_trip (ws : List Bytes) :
    Record.run ⟨none, []⟩ (ws.map fun w => (w, [])) =
      (⟨none, ws.map fun w => ⟨w, []⟩⟩, ws.map fun _ => ([], none)) ∧
    Playback.run ⟨ws.map fun w => ⟨w, []⟩⟩ (ws.map fun w => (w, [])) =
      (⟨[]⟩, ws.map fun _ => ([], none)) := by
  refine ⟨?_, playback_run_replay ws⟩
  simpa using record_run_empty_reads ws []

end Conntest
